import Mathlib

/-!
Shallow embedding of the SMC (Smart Money Concepts) trading-signal pipeline
from `trending-smc/app`.  Prices are modelled as rationals; a pandas
DataFrame of candles is modelled as a chronologically ordered `List Candle`
(oldest first), and `df.iloc[-n:]` as `takeLast`.  Python dicts that may or
may not carry the keys `ob_id` / `fvg_id` are modelled as a `Zone`
structure with `Option String` fields (key present iff `isSome`).
-/

/-- Candle record: `time` is the UTC hour of the candle timestamp (the
session logic only ever reads the hour after timezone normalisation). -/
structure Candle where
  time : Nat
  «open» : ℚ
  high : ℚ
  low : ℚ
  close : ℚ
deriving DecidableEq, Repr

/-- Default candle used for total indexing helpers (never observable on the
index ranges the code actually touches). -/
def cdef : Candle := ⟨0, 0, 0, 0, 0⟩

/-- Zone dict shared by order blocks, fair-value gaps and the deduplicator.
The Python dicts carry the keys `high`, `low`, optionally `close`, `open`,
and optionally one of the identifier keys `ob_id` / `fvg_id`. -/
structure Zone where
  low : ℚ
  high : ℚ
  closeP : Option ℚ := none
  openP : Option ℚ := none
  ob_id : Option String := none
  fvg_id : Option String := none
deriving DecidableEq, Repr

/-- Model of `df.iloc[-n:]` on a candle list.  Python `-0 == 0`, so the
slice with `n = 0` is the whole frame, not the empty one. -/
def takeLast (df : List Candle) (n : Nat) : List Candle :=
  if n = 0 then df else df.drop (df.length - n)

/-- Trailing `n` values of a rational column (the window a length-`n`
rolling mean averages at the last position). -/
def takeLastQ (xs : List ℚ) (n : Nat) : List ℚ :=
  xs.drop (xs.length - n)

/-- Maximum of a rational column, as pandas `.max()` (0 on the empty list,
which the code never evaluates). -/
def listMax : List ℚ → ℚ
  | [] => 0
  | x :: xs => xs.foldl max x

/-- Minimum of a rational column, as pandas `.min()`. -/
def listMin : List ℚ → ℚ
  | [] => 0
  | x :: xs => xs.foldl min x

/-- Last element of a candle list (`df.iloc[-1]`). -/
def lastC (df : List Candle) : Candle := df.getD (df.length - 1) cdef

/-- Second to last element of a candle list (`df.iloc[-2]`). -/
def prevC (df : List Candle) : Candle := df.getD (df.length - 2) cdef

/-- Slice `xs[a : b]` of a rational column. -/
def sliceQ (xs : List ℚ) (a b : Nat) : List ℚ := (xs.drop a).take (b - a)

/-- Model of `structure.find_swing_highs`: indices `i` in
`range(window, len(df) - window)` whose high equals the maximum of the
closed window `df.high[i-window : i+window+1]`. -/
def find_swing_highs (df : List Candle) (window : Nat) : List Nat :=
  (List.range' window (df.length - 2 * window)).filter fun i =>
    decide ((df.map (·.high)).getD i 0
      = listMax (sliceQ (df.map (·.high)) (i - window) (i + window + 1)))

/-- Model of `structure.find_swing_lows`. -/
def find_swing_lows (df : List Candle) (window : Nat) : List Nat :=
  (List.range' window (df.length - 2 * window)).filter fun i =>
    decide ((df.map (·.low)).getD i 0
      = listMin (sliceQ (df.map (·.low)) (i - window) (i + window + 1)))

/-- Trailing simple moving average: model of
`recent[col].rolling(window=n).mean().iloc[-1]`.  Pandas yields NaN when
fewer than `n` values exist; NaN is modelled as `none` (every comparison
against NaN is false in Python, matched below by comparisons on `Option`). -/
def sma (n : Nat) (xs : List ℚ) : Option ℚ :=
  if xs.length < n then none
  else some ((takeLastQ xs n).foldl (· + ·) 0 / (n : ℚ))

/-- Comparison chain `a > b > c` where `b`, `c` may be NaN (`none`):
false whenever a NaN is involved, as in Python float comparisons. -/
def gtChain (a : ℚ) (b c : Option ℚ) : Bool :=
  match b, c with
  | some b, some c => decide (b < a) && decide (c < b)
  | _, _ => false

/-- Comparison chain `a < b < c` with possibly-NaN `b`, `c`. -/
def ltChain (a : ℚ) (b c : Option ℚ) : Bool :=
  match b, c with
  | some b, some c => decide (a < b) && decide (b < c)
  | _, _ => false

/-- Score accumulation of `structure.htf_trend_advanced` (the three weighted
indicators), returning `(bullish, bearish, range)` scores.  Mirrors the
`scores` dict built in the source before the final `max`. -/
def trendScores (df : List Candle) (lookback : Nat) : ℚ × ℚ × ℚ :=
  let recent := takeLast df lookback
  -- Score 1: swing structure (weight 0.4 directional, 0.2 range)
  let highs := find_swing_highs recent 5
  let lows := find_swing_lows recent 5
  let s1 : ℚ × ℚ × ℚ :=
    if 2 ≤ highs.length ∧ 2 ≤ lows.length then
      let rh := recent.map (·.high)
      let rl := recent.map (·.low)
      let last_high := rh.getD (highs.getD (highs.length - 1) 0) 0
      let prev_high := rh.getD (highs.getD (highs.length - 2) 0) 0
      let last_low := rl.getD (lows.getD (lows.length - 1) 0) 0
      let prev_low := rl.getD (lows.getD (lows.length - 2) 0) 0
      if prev_high < last_high ∧ prev_low < last_low then (4/10, 0, 0)
      else if last_high < prev_high ∧ last_low < prev_low then (0, 4/10, 0)
      else (0, 0, 2/10)
    else (0, 0, 0)
  -- Score 2: moving averages (weight 0.3 directional, 0.15 range)
  let closes := recent.map (·.close)
  let sma_20 := sma 20 closes
  let sma_50 := sma 50 closes
  let current_close := closes.getD (closes.length - 1) 0
  let s2 : ℚ × ℚ × ℚ :=
    if gtChain current_close sma_20 sma_50 then (3/10, 0, 0)
    else if ltChain current_close sma_20 sma_50 then (0, 3/10, 0)
    else (0, 0, 15/100)
  -- Score 3: candle bias (weight 0.3 directional, 0.15 range)
  let bullish_candles : ℚ := ((recent.filter fun c => decide (c.«open» < c.close)).length : ℚ)
  let ratio := bullish_candles / (recent.length : ℚ)
  let s3 : ℚ × ℚ × ℚ :=
    if (6/10 : ℚ) < ratio then (3/10, 0, 0)
    else if ratio < (4/10 : ℚ) then (0, 3/10, 0)
    else (0, 0, 15/100)
  (s1.1 + s2.1 + s3.1, s1.2.1 + s2.2.1 + s3.2.1, s1.2.2 + s2.2.2 + s3.2.2)

/-- Model of `structure.htf_trend_advanced`: weighted trend classification
with confidence.  `max(scores, key=scores.get)` iterates the dict in
insertion order (bullish, bearish, range) keeping strict improvements, and
`confidence = max(scores.values())`. -/
def htf_trend_advanced (df : List Candle) (lookback : Nat) : String × ℚ :=
  if df.length < 20 then ("range", 0)
  else
    let s := trendScores df lookback
    let t1 := if s.1 < s.2.1 then "bearish" else "bullish"
    let v1 := if s.1 < s.2.1 then s.2.1 else s.1
    let trend := if v1 < s.2.2 then "range" else t1
    let confidence := max s.1 (max s.2.1 s.2.2)
    (trend, confidence)

/-- Model of `orderblock.order_blocks`: scans `range(1, len(recent) - 2)`
for a strong impulse candle in the trend direction followed by a pullback;
each match is tagged `OB_<n>` by scan-order rank (the mutable `ob_counter`
of the source becomes the rank in the list of matching indices). -/
def order_blocks (df : List Candle) (trend : String) (lookback : Nat) : List Zone :=
  let recent := takeLast df lookback
  let mk : Nat → Nat → Zone := fun rank i =>
    let current := recent.getD i cdef
    { low := current.low, high := current.high,
      closeP := some current.close, openP := some current.«open»,
      ob_id := some ("OB_" ++ toString (rank + 1)) }
  if trend = "bullish" then
    let idxs := (List.range' 1 (recent.length - 3)).filter fun i =>
      let current := recent.getD i cdef
      let next_candle := recent.getD (i + 1) cdef
      decide (current.«open» < current.close
        ∧ (current.high - current.low) * (6/10) < current.close - current.«open»
        ∧ next_candle.low < current.low)
    idxs.enum.map fun p => mk p.1 p.2
  else if trend = "bearish" then
    let idxs := (List.range' 1 (recent.length - 3)).filter fun i =>
      let current := recent.getD i cdef
      let next_candle := recent.getD (i + 1) cdef
      decide (current.close < current.«open»
        ∧ (current.high - current.low) * (6/10) < current.«open» - current.close
        ∧ current.high < next_candle.high)
    idxs.enum.map fun p => mk p.1 p.2
  else []

/-- Model of `fvg.fair_value_gaps`: scans `range(1, len(recent) - 1)` for a
price gap between consecutive candles that remains unfilled by every candle
from the gap index onward.  The returned dicts carry only the keys `high`
and `low` (no identifier). -/
def fair_value_gaps (df : List Candle) (trend : String) (lookback : Nat) : List Zone :=
  let recent := takeLast df lookback
  if trend = "bullish" then
    (List.range' 1 (recent.length - 2)).filterMap fun i =>
      let prev_candle := recent.getD (i - 1) cdef
      let current := recent.getD i cdef
      if prev_candle.high < current.low then
        let gap_low := prev_candle.high
        let gap_high := current.low
        let future_lows := listMin ((recent.drop i).map (·.low))
        if gap_low < future_lows then some { low := gap_low, high := gap_high }
        else none
      else none
  else if trend = "bearish" then
    (List.range' 1 (recent.length - 2)).filterMap fun i =>
      let prev_candle := recent.getD (i - 1) cdef
      let current := recent.getD i cdef
      if current.high < prev_candle.low then
        let gap_high := prev_candle.low
        let gap_low := current.high
        let future_highs := listMax ((recent.drop i).map (·.high))
        if future_highs < gap_high then some { low := gap_low, high := gap_high }
        else none
      else none
  else []

/-- Model of `liquidity.liquidity_sweep` on the last five candles. -/
def liquidity_sweep (df : List Candle) (trend : String) : Bool :=
  if df.length < 5 then false
  else
    let recent := takeLast df 5
    let current := lastC df
    let previous := prevC df
    if trend = "bullish" then
      let recent_high := listMax (recent.map (·.high))
      if recent_high * (99/100) ≤ previous.high ∧ current.close < recent_high then true
      else if recent_high * (99/100) ≤ current.high ∧ current.close < current.«open» then true
      else false
    else if trend = "bearish" then
      let recent_low := listMin (recent.map (·.low))
      if previous.low ≤ recent_low * (101/100) ∧ recent_low < current.close then true
      else if current.low ≤ recent_low * (101/100) ∧ current.«open» < current.close then true
      else false
    else false

/-- Model of `structure.bos` (break of structure). -/
def bos (df : List Candle) (trend : String) (lookback : Nat) : Bool :=
  if df.length < lookback + 5 then false
  else
    let recent := takeLast df lookback
    let current_high := (lastC df).high
    let current_low := (lastC df).low
    if trend = "bullish" then
      let lows := find_swing_lows recent 3
      if 2 ≤ lows.length then
        -- df.high.iloc[-lookback:-5].max()
        let structure_high := listMax ((takeLast df lookback |>.take (lookback - 5)).map (·.high))
        decide (structure_high < current_high)
      else false
    else if trend = "bearish" then
      let highs := find_swing_highs recent 3
      if 2 ≤ highs.length then
        let structure_low := listMin ((takeLast df lookback |>.take (lookback - 5)).map (·.low))
        decide (current_low < structure_low)
      else false
    else false

/-- Premium and discount bands of `zones.premium_discount`. -/
structure PDZones where
  premiumLow : ℚ
  premiumHigh : ℚ
  discountLow : ℚ
  discountHigh : ℚ
deriving DecidableEq, Repr

/-- Model of `zones.premium_discount`. -/
def premium_discount (df : List Candle) (lookback : Nat) : PDZones :=
  let recent := takeLast df lookback
  let highest := listMax (recent.map (·.high))
  let lowest := listMin (recent.map (·.low))
  { premiumLow := highest * (98/100), premiumHigh := highest,
    discountLow := lowest, discountHigh := lowest * (102/100) }

/-- Model of `zones.price_zone`: premium is checked first. -/
def price_zone (price : ℚ) (zones : PDZones) : String :=
  if zones.premiumLow ≤ price ∧ price ≤ zones.premiumHigh then "premium"
  else if zones.discountLow ≤ price ∧ price ≤ zones.discountHigh then "discount"
  else "neutral"

/-- Model of `helpers.get_trading_session` after timezone normalisation:
the branch cascade on the UTC hour of the timestamp. -/
def get_trading_session (hour : Nat) : String :=
  if 8 ≤ hour ∧ hour < 16 then "london"
  else if 13 ≤ hour ∧ hour < 21 then "newyork"
  else if hour < 8 then "tokyo"
  else "none"

/-- Model of `helpers.calculate_zone_strength`. -/
def calculate_zone_strength (price : ℚ) (zone : Zone) : ℚ :=
  let zone_range := zone.high - zone.low
  if zone_range = 0 then 1/2
  else
    let dist_from_low := price - zone.low
    let position_ratio := dist_from_low / zone_range
    let strength := 1 - |position_ratio - 1/2| * 2
    max 0 (min 1 strength)

/-- Model of `helpers.calculate_confidence_score`. -/
def calculate_confidence_score (ls_check bos_check : Bool) (zone_strength : ℚ) : String :=
  let conditions_met : Nat := (if ls_check then 1 else 0) + (if bos_check then 1 else 0)
  if conditions_met = 2 ∧ (7/10 : ℚ) < zone_strength then "A"
  else if conditions_met = 2 ∨ (7/10 : ℚ) < zone_strength then "B"
  else "C"

/-- Containment test `zone.low <= price <= zone.high` used by the
deduplicator loops. -/
def zoneContains (z : Zone) (price : ℚ) : Bool :=
  decide (z.low ≤ price ∧ price ≤ z.high)

/-- Model of `helpers.deduplicate_signals`: partition the combined list by
presence of the identifier keys, take the first zone of each kind that
contains the price (the for-loops with `break`), then resolve with FVG
priority on bounds. -/
def deduplicate_signals (zones_combined : List Zone) (price : ℚ) :
    Option Zone × String × String :=
  let obs := zones_combined.filter fun z => z.ob_id.isSome
  let fvgs := zones_combined.filter fun z => z.fvg_id.isSome
  let price_in_ob := obs.find? fun z => zoneContains z price
  let price_in_fvg := fvgs.find? fun z => zoneContains z price
  match price_in_ob, price_in_fvg with
  | some ob, some fvg =>
      (some fvg, "BOTH", fvg.fvg_id.getD "FVG_X" ++ "+" ++ ob.ob_id.getD "OB_X")
  | some ob, none => (some ob, "OB", ob.ob_id.getD "OB_X")
  | none, some fvg => (some fvg, "FVG", fvg.fvg_id.getD "FVG_X")
  | none, none => (none, "NONE", "NONE")

/-- Rounding to two decimals standing in for Python `round(x, 2)` (exact on
every value the development evaluates). -/
def round2 (x : ℚ) : ℚ := (⌊x * 100 + 1/2⌋ : ℚ) / 100

/-- Final signal record assembled by `helpers.format_signal_output` and
completed by the orchestrator with `trend_strength` and `session`. -/
structure Signal where
  side : String
  entry : ℚ × ℚ
  sl : ℚ
  tp : ℚ
  trend : String
  zone_type : String
  zone_source : String
  dedup_id : String
  confidence : String
  zone_strength : ℚ
  risk_reward : ℚ
  trend_strength : ℚ := 0
  session : String := "unknown"
deriving DecidableEq, Repr

/-- Model of `helpers.format_signal_output`. -/
def format_signal_output (side : String) (price sl tp : ℚ)
    (trend zone_type zone_source dedup_id confidence : String)
    (zone_strength : ℚ) : Signal :=
  let risk := |price - sl|
  let reward := |tp - price|
  let rr_ratio := if 0 < risk then reward / risk else 0
  { side := side, entry := (round2 price, round2 price), sl := round2 sl,
    tp := round2 tp, trend := trend, zone_type := zone_type,
    zone_source := zone_source, dedup_id := dedup_id,
    confidence := confidence, zone_strength := round2 zone_strength,
    risk_reward := round2 rr_ratio }

/-- Model of `smc_strategy.smc_strategy`: the gated pipeline.  The `debug`
and `min_confidence` parameters of the source do not influence the result
(the confidence filter is commented out) and are omitted; `session_filter`
is `Option String` (`none` models Python `None`). -/
def smc_strategy (htf_df ltf_df : List Candle) (session_filter : Option String) :
    Option Signal :=
  -- STEP 1: data validation
  if htf_df.length < 50 ∨ ltf_df.length < 20 then none
  else
    -- STEP 2: HTF trend
    let tc := htf_trend_advanced htf_df 50
    let trend := tc.1
    let trend_strength := tc.2
    if trend = "range" ∧ trend_strength < 1/2 then none
    else
      -- STEP 3: session filter
      let current_session :=
        match session_filter with
        | none => "unknown"
        | some _ => get_trading_session (lastC ltf_df).time
      let session_ok :=
        match session_filter with
        | none => true
        | some f => decide (current_session = f)
      if session_ok then
        -- STEP 4: premium/discount zones
        let zones := premium_discount htf_df 100
        let price := (lastC ltf_df).close
        let zone_type := price_zone price zones
        -- STEP 5: order blocks and FVGs
        let obs := order_blocks htf_df trend 50
        let fvgs := fair_value_gaps htf_df trend 50
        let zones_combined := obs ++ fvgs
        if zones_combined.isEmpty then none
        else
          -- STEP 6: deduplication
          match deduplicate_signals zones_combined price with
          | (none, _, _) => none
          | (some price_in_zone, zone_source, dedup_id) =>
            -- STEP 7: confirmations
            let ls_check := liquidity_sweep ltf_df trend
            let bos_check := bos ltf_df trend 20
            -- STEP 8: confidence
            let zone_strength := calculate_zone_strength price price_in_zone
            let confidence := calculate_confidence_score ls_check bos_check zone_strength
            -- STEP 10: trade signal (bullish branch, else bearish)
            let sl := if trend = "bullish" then price_in_zone.low else price_in_zone.high
            let tp := if trend = "bullish" then price + (price - sl) * 3
                      else price - (sl - price) * 3
            let side := if trend = "bullish" then "BUY" else "SELL"
            -- STEP 11: final signal
            let sig := format_signal_output side price sl tp trend zone_type
              zone_source dedup_id confidence zone_strength
            some { sig with trend_strength := trend_strength,
                            session := current_session }
      else none

/-! ### Concrete candle series used as witnesses and counterexamples -/

/-- Synthetic bullish HTF series: 50 rising strong-bodied candles, with a
pullback low on candle 2 so that candle 1 forms the single order block. -/
def htfEx : List Candle :=
  (List.range 50).map fun j =>
    if j = 2 then { time := 2, «open» := 102, high := 413/4, low := 201/2, close := 103 }
    else { time := j, «open» := 100 + j, high := 405/4 + j, low := 399/4 + j, close := 101 + j }

/-- Synthetic LTF series: 20 identical candles closing at 101 (inside the
order block of `htfEx`), with a liquidity sweep and no structure break. -/
def ltfEx : List Candle :=
  List.replicate 20 { time := 13, «open» := 201/2, high := 102, low := 100, close := 101 }

/-- Synthetic HTF series classifying as ("range", 1/2): alternating up and
down candles with equal extremes. -/
def htfR : List Candle :=
  (List.range 50).map fun j =>
    if j % 2 = 0 then { time := j, «open» := 100, high := 102, low := 99, close := 101 }
    else { time := j, «open» := 101, high := 102, low := 99, close := 100 }

/-- Synthetic HTF series containing one bearish order block (candle 1,
whose high is exceeded by candle 2). -/
def htfB : List Candle :=
  (List.range 50).map fun j =>
    if j = 2 then { time := 2, «open» := 101, high := 102, low := 399/4, close := 100 }
    else { time := j, «open» := 101, high := 405/4, low := 399/4, close := 100 }

/-- Three candles forming one unfilled bullish fair-value gap between
candle 0 (high 100) and candle 1 (low 101). -/
def htfG : List Candle :=
  [ { time := 0, «open» := 199/2, high := 100, low := 99, close := 100 },
    { time := 1, «open» := 203/2, high := 103, low := 101, close := 205/2 },
    { time := 2, «open» := 102, high := 104, low := 203/2, close := 103 } ]

/-- The signal produced by `smc_strategy htfEx ltfEx none`. -/
def sigEx : Signal :=
  { side := "BUY", entry := (101, 101), sl := 403/4, tp := 407/4,
    trend := "bullish", zone_type := "discount", zone_source := "OB",
    dedup_id := "OB_1", confidence := "C", zone_strength := 33/100,
    risk_reward := 3, trend_strength := 3/5, session := "unknown" }

/-- An order-block zone and a fair-value-gap zone that overlap around
price 5, for exercising the deduplicator. -/
def obZoneEx : Zone := { low := 4, high := 6, ob_id := some "OB_1" }

/-- Overlapping fair-value-gap zone for the deduplicator example. -/
def fvgZoneEx : Zone := { low := 3, high := 7, fvg_id := some "FVG_1" }

/-! ### Helper lemmas -/

theorem foldl_min_le_init (xs : List ℚ) (a : ℚ) : xs.foldl min a ≤ a := by
  induction xs generalizing a with
  | nil => simp
  | cons x xs ih => exact le_trans (ih (min a x)) (min_le_left a x)

theorem foldl_min_le_mem (xs : List ℚ) (a x : ℚ) (hx : x ∈ xs) : xs.foldl min a ≤ x := by
  induction xs generalizing a with
  | nil => cases hx
  | cons y ys ih =>
    rcases List.mem_cons.mp hx with h | h
    · subst h
      exact le_trans (foldl_min_le_init ys (min a x)) (min_le_right a x)
    · exact ih (min a y) h

theorem listMin_le_mem (xs : List ℚ) (x : ℚ) (hx : x ∈ xs) : listMin xs ≤ x := by
  cases xs with
  | nil => cases hx
  | cons y ys =>
    rcases List.mem_cons.mp hx with h | h
    · subst h
      exact foldl_min_le_init ys x
    · exact foldl_min_le_mem ys y x h

theorem init_le_foldl_max (xs : List ℚ) (a : ℚ) : a ≤ xs.foldl max a := by
  induction xs generalizing a with
  | nil => simp
  | cons x xs ih => exact le_trans (le_max_left a x) (ih (max a x))

theorem mem_le_foldl_max (xs : List ℚ) (a x : ℚ) (hx : x ∈ xs) : x ≤ xs.foldl max a := by
  induction xs generalizing a with
  | nil => cases hx
  | cons y ys ih =>
    rcases List.mem_cons.mp hx with h | h
    · subst h
      exact le_trans (le_max_right a x) (init_le_foldl_max ys (max a x))
    · exact ih (max a y) h

theorem mem_le_listMax (xs : List ℚ) (x : ℚ) (hx : x ∈ xs) : x ≤ listMax xs := by
  cases xs with
  | nil => cases hx
  | cons y ys =>
    rcases List.mem_cons.mp hx with h | h
    · subst h
      exact init_le_foldl_max ys x
    · exact mem_le_foldl_max ys y x h

/-- Range of `get_trading_session`. -/
theorem get_trading_session_mem (hour : Nat) :
    get_trading_session hour ∈ (["london", "newyork", "tokyo", "none"] : List String) := by
  unfold get_trading_session
  split_ifs <;> simp

/-- Every zone returned by `order_blocks` carries an `OB_<n>` identifier
(with `n ≥ 1`) and no `fvg_id`. -/
theorem order_blocks_ids (df : List Candle) (t : String) (lb : Nat) (z : Zone)
    (hz : z ∈ order_blocks df t lb) :
    z.fvg_id = none ∧ ∃ n : Nat, z.ob_id = some ("OB_" ++ toString (n + 1)) := by
  simp only [order_blocks] at hz
  split_ifs at hz <;>
    first
    | exact absurd hz (List.not_mem_nil z)
    | · simp only [List.mem_map] at hz
        obtain ⟨p, _, hp⟩ := hz
        subst hp
        exact ⟨rfl, p.1, rfl⟩

/-- Every zone returned by `fair_value_gaps` carries neither identifier key. -/
theorem fair_value_gaps_ids (df : List Candle) (t : String) (lb : Nat) (z : Zone)
    (hz : z ∈ fair_value_gaps df t lb) :
    z.ob_id = none ∧ z.fvg_id = none := by
  simp only [fair_value_gaps] at hz
  split_ifs at hz <;>
    first
    | exact absurd hz (List.not_mem_nil z)
    | · simp only [List.mem_filterMap] at hz
        obtain ⟨i, _, hi⟩ := hz
        split_ifs at hi
        obtain rfl := Option.some.inj hi
        exact ⟨rfl, rfl⟩

/-- `order_blocks` returns the empty list for any trend other than
"bullish" or "bearish". -/
theorem order_blocks_of_other (df : List Candle) (t : String) (lb : Nat)
    (h1 : t ≠ "bullish") (h2 : t ≠ "bearish") : order_blocks df t lb = [] := by
  simp only [order_blocks]
  rw [if_neg h1, if_neg h2]

/-- `fair_value_gaps` returns the empty list for any trend other than
"bullish" or "bearish". -/
theorem fair_value_gaps_of_other (df : List Candle) (t : String) (lb : Nat)
    (h1 : t ≠ "bullish") (h2 : t ≠ "bearish") : fair_value_gaps df t lb = [] := by
  simp only [fair_value_gaps]
  rw [if_neg h1, if_neg h2]

/-- When no zone of the combined list carries an `fvg_id`, the deduplicator
can only resolve to an order block (or to nothing). -/
theorem dedup_ob_case (zones : List Zone) (price : ℚ)
    (hf : zones.filter (fun z => z.fvg_id.isSome) = [])
    (pz : Zone) (zs did : String)
    (h : deduplicate_signals zones price = (some pz, zs, did)) :
    pz ∈ zones ∧ pz.ob_id.isSome ∧ zs = "OB" ∧ did = pz.ob_id.getD "OB_X" := by
  simp only [deduplicate_signals, hf, List.find?_nil] at h
  cases hfind : (zones.filter fun z => z.ob_id.isSome).find? (fun z => zoneContains z price) with
  | none => rw [hfind] at h; cases h
  | some ob =>
    rw [hfind] at h
    simp only [Prod.mk.injEq, Option.some.injEq] at h
    obtain ⟨hob, hzs, hdid⟩ := h
    subst hob
    have hmem := List.mem_of_find?_eq_some hfind
    obtain ⟨hmemz, hpred⟩ := List.mem_filter.mp hmem
    exact ⟨hmemz, hpred, hzs.symm, hdid.symm⟩

/-- Range of `get_trading_session`, extended with the sentinel. -/
theorem get_trading_session_mem5 (hr : Nat) :
    get_trading_session hr ∈ (["london", "newyork", "tokyo", "none", "unknown"] : List String) := by
  unfold get_trading_session
  split_ifs <;> simp

set_option maxHeartbeats 1600000 in
/-- Inversion of a successful orchestrator run: the zone source and
identifier of the signal come from the deduplicator applied to the combined
order-block and fair-value-gap zones, and the session is the sentinel
"unknown" or a value of `get_trading_session`. -/
theorem smc_strategy_some_inv (htf ltf : List Candle) (filt : Option String) (sig : Signal)
    (h : smc_strategy htf ltf filt = some sig) :
    ∃ pz zs did,
      deduplicate_signals
        (order_blocks htf (htf_trend_advanced htf 50).1 50
          ++ fair_value_gaps htf (htf_trend_advanced htf 50).1 50)
        (lastC ltf).close = (some pz, zs, did)
      ∧ sig.zone_source = zs ∧ sig.dedup_id = did
      ∧ sig.session ∈ (["london", "newyork", "tokyo", "none", "unknown"] : List String) := by
  have hu : ("unknown" : String) ∈
      (["london", "newyork", "tokyo", "none", "unknown"] : List String) := by simp
  cases filt with
  | none =>
    simp only [smc_strategy] at h
    split_ifs at h <;>
      (split at h
       · cases h
       · rename_i pz zs did heq
         obtain rfl := Option.some.inj h
         exact ⟨pz, zs, did, heq, rfl, rfl, hu⟩)
  | some f =>
    simp only [smc_strategy] at h
    split_ifs at h <;>
      (split at h
       · cases h
       · rename_i pz zs did heq
         obtain rfl := Option.some.inj h
         exact ⟨pz, zs, did, heq, rfl, rfl, get_trading_session_mem5 (lastC ltf).time⟩)

/-- The combined zone list of a run never contains an `fvg_id` key. -/
theorem combined_no_fvg_id (df : List Candle) (t : String) (lb : Nat) :
    (order_blocks df t lb ++ fair_value_gaps df t lb).filter
      (fun z => z.fvg_id.isSome) = [] := by
  rw [List.filter_eq_nil_iff]
  intro z hz
  rcases List.mem_append.mp hz with hmem | hmem
  · have := (order_blocks_ids df t lb z hmem).1
    simp [this]
  · have := (fair_value_gaps_ids df t lb z hmem).2
    simp [this]

/-- C2: for every pair of input series and every configuration, a signal
returned by `smc_strategy` always has zone source "OB" and an identifier of
the form `OB_<n>` with `n ≥ 1`; the sources "FVG" and "BOTH" are
unreachable because `fair_value_gaps` emits no `fvg_id` key and
`deduplicate_signals` selects fair-value-gap candidates solely by the
presence of that key. -/
theorem smc_signal_source_ob (htf ltf : List Candle) (filt : Option String) (sig : Signal)
    (h : smc_strategy htf ltf filt = some sig) :
    sig.zone_source = "OB" ∧ ∃ n : Nat, sig.dedup_id = "OB_" ++ toString (n + 1) := by
  obtain ⟨pz, zs, did, heq, hzs, hdid, -⟩ := smc_strategy_some_inv htf ltf filt sig h
  obtain ⟨hmem, hsome, hzsOB, hdidOB⟩ :=
    dedup_ob_case _ _ (combined_no_fvg_id htf (htf_trend_advanced htf 50).1 50) pz zs did heq
  rcases List.mem_append.mp hmem with hob | hfv
  · obtain ⟨-, n, hid⟩ := order_blocks_ids _ _ _ pz hob
    refine ⟨hzs.trans hzsOB, n, ?_⟩
    rw [hdid, hdidOB, hid]
    rfl
  · have hnone := (fair_value_gaps_ids _ _ _ pz hfv).1
    rw [hnone] at hsome
    simp at hsome

set_option maxRecDepth 100000 in
set_option maxHeartbeats 4000000 in
/-- Witness for C2 at the concrete series `htfEx`, `ltfEx`. -/
theorem smc_signal_source_ob_witness :
    sigEx.zone_source = "OB" ∧ ∃ n : Nat, sigEx.dedup_id = "OB_" ++ toString (n + 1) :=
  smc_signal_source_ob htfEx ltfEx none sigEx (by with_unfolding_all rfl)

set_option maxRecDepth 100000 in
/-- C1 (failing input): on the three-candle series `htfG` with trend
"bullish" the fair-value-gap detector reports exactly one gap, and that
gap carries no `FVG_<n>` identifier at all — the returned dict has only the
keys `high` and `low`, while the order-block detector does tag its zones
with `OB_<n>`. -/
theorem fvg_missing_identifier_failing_input :
    fair_value_gaps htfG "bullish" 50
      = [{ low := 100, high := 101, closeP := none, openP := none,
           ob_id := none, fvg_id := none }]
    ∧ (∀ z ∈ fair_value_gaps htfG "bullish" 50, z.fvg_id = none)
    ∧ (∀ z ∈ order_blocks htfEx "bullish" 50,
        ∃ n : Nat, z.ob_id = some ("OB_" ++ toString (n + 1))) := by
  refine ⟨by with_unfolding_all rfl, ?_, ?_⟩
  · intro z hz
    exact (fair_value_gaps_ids _ _ _ z hz).2
  · intro z hz
    exact (order_blocks_ids _ _ _ z hz).2

set_option maxRecDepth 100000 in
set_option maxHeartbeats 4000000 in
/-- C3 (counterexample): the "range" trend does not fall through to the
bearish branch of the zone detectors — `htfB` has a bearish order block,
yet the "range" scan returns nothing — and a run whose HTF trend is
("range", 1/2) passes the trend gate but still produces no signal. -/
theorem range_fallthrough_counterexample :
    order_blocks htfB "range" 50 = []
    ∧ order_blocks htfB "bearish" 50 ≠ []
    ∧ fair_value_gaps htfB "range" 50 = []
    ∧ htf_trend_advanced htfR 50 = ("range", 1/2)
    ∧ smc_strategy htfR ltfEx none = none := by
  refine ⟨by with_unfolding_all rfl, by with_unfolding_all decide,
    by with_unfolding_all rfl, by with_unfolding_all rfl, by with_unfolding_all rfl⟩

/-- C3 (amended): when the HTF trend classifies as "range" the orchestrator
never completes with a signal, whatever the confidence: the order-block and
fair-value-gap detectors branch only on "bullish"/"bearish" and return
empty lists for "range", so the structure scan always terminates the run;
only the unreached stop/target stage would treat "range" as bearish. -/
theorem smc_strategy_range_amended :
    (∀ (df : List Candle) (lb : Nat),
      order_blocks df "range" lb = [] ∧ fair_value_gaps df "range" lb = [])
    ∧ ∀ (htf ltf : List Candle) (filt : Option String),
        (htf_trend_advanced htf 50).1 = "range" → smc_strategy htf ltf filt = none := by
  constructor
  · intro df lb
    exact ⟨order_blocks_of_other df _ lb (by decide) (by decide),
      fair_value_gaps_of_other df _ lb (by decide) (by decide)⟩
  · intro htf ltf filt h
    simp only [smc_strategy, h]
    rw [order_blocks_of_other htf _ 50 (by decide) (by decide),
      fair_value_gaps_of_other htf _ 50 (by decide) (by decide)]
    simp

set_option maxRecDepth 100000 in
set_option maxHeartbeats 4000000 in
/-- Witness for the amended C3 at the concrete range-classified series. -/
theorem smc_strategy_range_amended_witness :
    smc_strategy htfR ltfEx none = none :=
  smc_strategy_range_amended.2 htfR ltfEx none (by with_unfolding_all rfl)

/-- Session mapping stated from the claim wording: hours 8-15 london,
13-20 newyork where not london, 0-7 tokyo, otherwise none. -/
def sessionSpec (hour : Nat) : String :=
  if 8 ≤ hour ∧ hour ≤ 15 then "london"
  else if 13 ≤ hour ∧ hour ≤ 20 then "newyork"
  else if hour ≤ 7 then "tokyo"
  else "none"

set_option maxRecDepth 100000 in
set_option maxHeartbeats 4000000 in
/-- C5 (counterexample): with the session filter disabled the orchestrator
assembles a signal whose session is the sentinel "unknown", which is not
one of london, newyork, tokyo, none. -/
theorem session_unknown_counterexample :
    smc_strategy htfEx ltfEx none = some sigEx
    ∧ sigEx.session = "unknown"
    ∧ sigEx.session ∉ (["london", "newyork", "tokyo", "none"] : List String) := by
  refine ⟨by with_unfolding_all rfl, rfl, by decide⟩

/-- C5 (amended): the session carried by an assembled signal is one of
london, newyork, tokyo, none, or the sentinel "unknown" used when no
session filter is configured; and the session computed for a UTC hour is a
pure function of that hour with ranges 8-15 london, 13-20 (where not
london) newyork, 0-7 tokyo, otherwise none. -/
theorem smc_session_amended :
    (∀ (htf ltf : List Candle) (filt : Option String) (sig : Signal),
      smc_strategy htf ltf filt = some sig →
        sig.session ∈ (["london", "newyork", "tokyo", "none", "unknown"] : List String))
    ∧ ∀ hr : Nat, get_trading_session hr = sessionSpec hr := by
  constructor
  · intro htf ltf filt sig h
    obtain ⟨-, -, -, -, -, -, hs⟩ := smc_strategy_some_inv htf ltf filt sig h
    exact hs
  · intro hr
    unfold get_trading_session sessionSpec
    split_ifs <;> first | rfl | omega

set_option maxRecDepth 100000 in
set_option maxHeartbeats 4000000 in
/-- Witness for the amended C5 at the concrete run with a disabled filter. -/
theorem smc_session_amended_witness :
    sigEx.session ∈ (["london", "newyork", "tokyo", "none", "unknown"] : List String) :=
  smc_session_amended.1 htfEx ltfEx none sigEx (by with_unfolding_all rfl)

/-- First-match search of the deduplicator succeeds exactly when some zone
of the given kind contains the price. -/
theorem find_first_contains (zones : List Zone) (price : ℚ) (tag : Zone → Bool) :
    ((zones.filter tag).find? (fun z => zoneContains z price)).isSome
      ↔ ∃ z ∈ zones, tag z = true ∧ zoneContains z price = true := by
  rw [List.find?_isSome]
  constructor
  · rintro ⟨z, hm, hp⟩
    obtain ⟨hz, ht⟩ := List.mem_filter.mp hm
    exact ⟨z, hz, ht, hp⟩
  · rintro ⟨z, hz, ht, hp⟩
    exact ⟨z, List.mem_filter.mpr ⟨hz, ht⟩, hp⟩

/-- First-match search of the deduplicator fails when no zone of the given
kind contains the price. -/
theorem find_none_of_not_contains (zones : List Zone) (price : ℚ) (tag : Zone → Bool)
    (h : ¬ ∃ z ∈ zones, tag z = true ∧ zoneContains z price = true) :
    (zones.filter tag).find? (fun z => zoneContains z price) = none := by
  rw [List.find?_eq_none]
  intro z hm hp
  obtain ⟨hz, ht⟩ := List.mem_filter.mp hm
  exact h ⟨z, hz, ht, hp⟩

/-- C4: resolution priority of `deduplicate_signals`.  When zones of both
kinds contain the price (first match in scan order for each kind
independently) the result is the fair-value gap zone (its bounds), source
"BOTH" and identifier `<fvg_id>+<ob_id>`; when only one kind contains the
price, that zone with its source and identifier; when none does,
`(no zone, "NONE", "NONE")`. -/
theorem deduplicate_signals_resolution (zones : List Zone) (price : ℚ) :
    ((∃ z ∈ zones, z.ob_id.isSome = true ∧ zoneContains z price = true) →
     (∃ z ∈ zones, z.fvg_id.isSome = true ∧ zoneContains z price = true) →
     ∃ ob fvg,
       (zones.filter fun z => z.ob_id.isSome).find? (fun z => zoneContains z price) = some ob
       ∧ (zones.filter fun z => z.fvg_id.isSome).find? (fun z => zoneContains z price) = some fvg
       ∧ deduplicate_signals zones price
          = (some fvg, "BOTH", fvg.fvg_id.getD "FVG_X" ++ "+" ++ ob.ob_id.getD "OB_X"))
    ∧ ((∃ z ∈ zones, z.ob_id.isSome = true ∧ zoneContains z price = true) →
       (¬ ∃ z ∈ zones, z.fvg_id.isSome = true ∧ zoneContains z price = true) →
       ∃ ob,
         (zones.filter fun z => z.ob_id.isSome).find? (fun z => zoneContains z price) = some ob
         ∧ deduplicate_signals zones price = (some ob, "OB", ob.ob_id.getD "OB_X"))
    ∧ ((¬ ∃ z ∈ zones, z.ob_id.isSome = true ∧ zoneContains z price = true) →
       (∃ z ∈ zones, z.fvg_id.isSome = true ∧ zoneContains z price = true) →
       ∃ fvg,
         (zones.filter fun z => z.fvg_id.isSome).find? (fun z => zoneContains z price) = some fvg
         ∧ deduplicate_signals zones price = (some fvg, "FVG", fvg.fvg_id.getD "FVG_X"))
    ∧ ((¬ ∃ z ∈ zones, z.ob_id.isSome = true ∧ zoneContains z price = true) →
       (¬ ∃ z ∈ zones, z.fvg_id.isSome = true ∧ zoneContains z price = true) →
       deduplicate_signals zones price = (none, "NONE", "NONE")) := by
  refine ⟨?_, ?_, ?_, ?_⟩
  · intro hob hfvg
    obtain ⟨ob, hfo⟩ := Option.isSome_iff_exists.mp
      ((find_first_contains zones price _).mpr hob)
    obtain ⟨fvg, hff⟩ := Option.isSome_iff_exists.mp
      ((find_first_contains zones price _).mpr hfvg)
    exact ⟨ob, fvg, hfo, hff, by simp only [deduplicate_signals, hfo, hff]⟩
  · intro hob hfvg
    obtain ⟨ob, hfo⟩ := Option.isSome_iff_exists.mp
      ((find_first_contains zones price _).mpr hob)
    have hff := find_none_of_not_contains zones price _ hfvg
    exact ⟨ob, hfo, by simp only [deduplicate_signals, hfo, hff]⟩
  · intro hob hfvg
    have hfo := find_none_of_not_contains zones price _ hob
    obtain ⟨fvg, hff⟩ := Option.isSome_iff_exists.mp
      ((find_first_contains zones price _).mpr hfvg)
    exact ⟨fvg, hff, by simp only [deduplicate_signals, hfo, hff]⟩
  · intro hob hfvg
    have hfo := find_none_of_not_contains zones price _ hob
    have hff := find_none_of_not_contains zones price _ hfvg
    simp only [deduplicate_signals, hfo, hff]

/-- Witness for C4 on overlapping concrete zones at price 5. -/
theorem deduplicate_signals_resolution_witness :
    ∃ ob fvg,
      (([obZoneEx, fvgZoneEx].filter fun z => z.ob_id.isSome).find?
        (fun z => zoneContains z (5 : ℚ))) = some ob
      ∧ (([obZoneEx, fvgZoneEx].filter fun z => z.fvg_id.isSome).find?
        (fun z => zoneContains z (5 : ℚ))) = some fvg
      ∧ deduplicate_signals [obZoneEx, fvgZoneEx] 5
          = (some fvg, "BOTH", fvg.fvg_id.getD "FVG_X" ++ "+" ++ ob.ob_id.getD "OB_X") :=
  (deduplicate_signals_resolution [obZoneEx, fvgZoneEx] 5).1
    (by with_unfolding_all decide) (by with_unfolding_all decide)

/-- C6: every reported fair-value gap is unfilled within the scanned
window: for a bullish gap found at index i the minimum low over all candles
from i onward stays strictly above the gap lower bound (so no later candle
of the window reaches back down to it), and dually for bearish gaps. -/
theorem fair_value_gaps_unfilled (df : List Candle) (lookback : Nat) (z : Zone) :
    (z ∈ fair_value_gaps df "bullish" lookback →
      ∃ i, 1 ≤ i ∧ i + 1 < (takeLast df lookback).length
        ∧ z.low = ((takeLast df lookback).getD (i - 1) cdef).high
        ∧ z.high = ((takeLast df lookback).getD i cdef).low
        ∧ z.low < listMin (((takeLast df lookback).drop i).map (·.low))
        ∧ ∀ c ∈ (takeLast df lookback).drop i, z.low < c.low)
    ∧ (z ∈ fair_value_gaps df "bearish" lookback →
      ∃ i, 1 ≤ i ∧ i + 1 < (takeLast df lookback).length
        ∧ z.high = ((takeLast df lookback).getD (i - 1) cdef).low
        ∧ z.low = ((takeLast df lookback).getD i cdef).high
        ∧ listMax (((takeLast df lookback).drop i).map (·.high)) < z.high
        ∧ ∀ c ∈ (takeLast df lookback).drop i, c.high < z.high) := by
  constructor
  · intro hz
    simp only [fair_value_gaps] at hz
    rw [if_pos trivial] at hz
    rw [List.mem_filterMap] at hz
    obtain ⟨i, hir, hfi⟩ := hz
    split_ifs at hfi with h1 h2
    obtain rfl := Option.some.inj hfi
    obtain ⟨hi1, hi2⟩ := List.mem_range'_1.mp hir
    refine ⟨i, hi1, by omega, rfl, rfl, h2, ?_⟩
    intro c hc
    have hm := listMin_le_mem _ c.low (List.mem_map_of_mem (fun x => x.low) hc)
    exact lt_of_lt_of_le h2 hm
  · intro hz
    simp only [fair_value_gaps] at hz
    rw [if_neg (by decide), if_pos trivial] at hz
    rw [List.mem_filterMap] at hz
    obtain ⟨i, hir, hfi⟩ := hz
    split_ifs at hfi with h1 h2
    obtain rfl := Option.some.inj hfi
    obtain ⟨hi1, hi2⟩ := List.mem_range'_1.mp hir
    refine ⟨i, hi1, by omega, rfl, rfl, h2, ?_⟩
    intro c hc
    have hm := mem_le_listMax _ c.high (List.mem_map_of_mem (fun x => x.high) hc)
    exact lt_of_le_of_lt hm h2

set_option maxRecDepth 100000 in
/-- Witness for C6 at the concrete gap of `htfG`. -/
theorem fair_value_gaps_unfilled_witness :
    ∃ i, 1 ≤ i ∧ i + 1 < (takeLast htfG 50).length
      ∧ ({ low := 100, high := 101 } : Zone).low = ((takeLast htfG 50).getD (i - 1) cdef).high
      ∧ ({ low := 100, high := 101 } : Zone).high = ((takeLast htfG 50).getD i cdef).low
      ∧ ({ low := 100, high := 101 } : Zone).low
          < listMin (((takeLast htfG 50).drop i).map (·.low))
      ∧ ∀ c ∈ (takeLast htfG 50).drop i, ({ low := 100, high := 101 } : Zone).low < c.low :=
  (fair_value_gaps_unfilled htfG 50 { low := 100, high := 101 }).1
    (by with_unfolding_all decide)

/-- Ordinal rank of a confidence grade, mirroring the `confidence_rank`
dict of `helpers.filter_by_confidence` (A=3, B=2, other=1). -/
def gradeRank (g : String) : Nat :=
  if g = "A" then 3 else if g = "B" then 2 else 1

/-- C7: grade characterisation of `calculate_confidence_score` — A exactly
when both confirmations hold and strength exceeds 0.7; B exactly when the
weaker disjunction holds but not the A condition; C otherwise — and
monotonicity: turning any confirmation boolean on never lowers the grade. -/
theorem calculate_confidence_score_spec (l b : Bool) (s : ℚ) :
    (calculate_confidence_score l b s = "A" ↔ (l = true ∧ b = true ∧ (7/10 : ℚ) < s))
    ∧ (calculate_confidence_score l b s = "B"
        ↔ (((l = true ∧ b = true) ∨ (7/10 : ℚ) < s)
            ∧ ¬(l = true ∧ b = true ∧ (7/10 : ℚ) < s)))
    ∧ (calculate_confidence_score l b s = "C"
        ↔ (¬(l = true ∧ b = true) ∧ ¬((7/10 : ℚ) < s)))
    ∧ ∀ l' b' : Bool, (l = true → l' = true) → (b = true → b' = true) →
        gradeRank (calculate_confidence_score l b s)
          ≤ gradeRank (calculate_confidence_score l' b' s) := by
  by_cases hs : (7/10 : ℚ) < s
  · refine ⟨?_, ?_, ?_, ?_⟩
    · cases l <;> cases b <;> simp [calculate_confidence_score, hs]
    · cases l <;> cases b <;> simp [calculate_confidence_score, hs]
    · cases l <;> cases b <;> simp [calculate_confidence_score, hs]
    · intro l' b' h1 h2
      cases l <;> cases b <;> cases l' <;> cases b' <;>
        simp_all [calculate_confidence_score, gradeRank, hs]
  · refine ⟨?_, ?_, ?_, ?_⟩
    · cases l <;> cases b <;> simp [calculate_confidence_score, hs]
    · cases l <;> cases b <;> simp [calculate_confidence_score, hs]
    · cases l <;> cases b <;> simp [calculate_confidence_score, hs]
    · intro l' b' h1 h2
      cases l <;> cases b <;> cases l' <;> cases b' <;>
        simp_all [calculate_confidence_score, gradeRank, hs] <;>
        (try (split_ifs <;> simp_all))

/-- Witness for the monotonicity part of C7: enabling the liquidity-sweep
boolean at strength 0.8 upgrades B to A. -/
theorem calculate_confidence_score_spec_witness :
    gradeRank (calculate_confidence_score false true (4/5))
      ≤ gradeRank (calculate_confidence_score true true (4/5)) :=
  (calculate_confidence_score_spec false true (4/5)).2.2.2 true true
    (fun _ => rfl) (fun _ => rfl)

/-- Each accumulated trend score is between 0 and 1 (the three weights sum
to at most 1 for every label). -/
theorem trendScores_bounds (df : List Candle) (lb : Nat) :
    0 ≤ (trendScores df lb).1 ∧ (trendScores df lb).1 ≤ 1
    ∧ 0 ≤ (trendScores df lb).2.1 ∧ (trendScores df lb).2.1 ≤ 1
    ∧ 0 ≤ (trendScores df lb).2.2 ∧ (trendScores df lb).2.2 ≤ 1 := by
  simp only [trendScores]
  split_ifs <;> norm_num

/-- C8: with at least 20 candles the weighted classifier returns a label
whose accumulated score is highest, together with that score as the
confidence, and the confidence lies in [0, 1]; with fewer than 20 candles
it returns exactly ("range", 0.0). -/
theorem htf_trend_advanced_spec (df : List Candle) (lb : Nat) :
    (df.length < 20 → htf_trend_advanced df lb = ("range", 0))
    ∧ (20 ≤ df.length →
        (htf_trend_advanced df lb).2
          = max (trendScores df lb).1 (max (trendScores df lb).2.1 (trendScores df lb).2.2)
        ∧ (((htf_trend_advanced df lb).1 = "bullish"
              ∧ (htf_trend_advanced df lb).2 = (trendScores df lb).1)
          ∨ ((htf_trend_advanced df lb).1 = "bearish"
              ∧ (htf_trend_advanced df lb).2 = (trendScores df lb).2.1)
          ∨ ((htf_trend_advanced df lb).1 = "range"
              ∧ (htf_trend_advanced df lb).2 = (trendScores df lb).2.2))
        ∧ 0 ≤ (htf_trend_advanced df lb).2 ∧ (htf_trend_advanced df lb).2 ≤ 1) := by
  constructor
  · intro h
    simp only [htf_trend_advanced, if_pos h]
  · intro h
    have h' : ¬ df.length < 20 := not_lt.mpr h
    obtain ⟨hb0, hb1, hr0, hr1, hg0, hg1⟩ := trendScores_bounds df lb
    simp only [htf_trend_advanced, if_neg h']
    refine ⟨trivial, ?_, ?_, ?_⟩
    · by_cases h1 : (trendScores df lb).1 < (trendScores df lb).2.1
      · by_cases h2 : (trendScores df lb).2.1 < (trendScores df lb).2.2
        · right; right
          refine ⟨by simp [h1, h2], ?_⟩
          rw [max_eq_right h2.le, max_eq_right (le_trans h1.le h2.le)]
        · right; left
          refine ⟨by simp [h1, h2], ?_⟩
          rw [max_eq_left (not_lt.mp h2), max_eq_right h1.le]
      · by_cases h2 : (trendScores df lb).1 < (trendScores df lb).2.2
        · right; right
          refine ⟨by simp [h1, h2], ?_⟩
          rw [max_eq_right (le_of_lt (lt_of_le_of_lt (not_lt.mp h1) h2)),
            max_eq_right h2.le]
        · left
          refine ⟨by simp [h1, h2], ?_⟩
          rw [max_eq_left (max_le (not_lt.mp h1) (not_lt.mp h2))]
    · exact le_trans hb0 (le_max_left _ _)
    · exact max_le hb1 (max_le hr1 hg1)

set_option maxRecDepth 100000 in
/-- Witness for C8 on the empty series and on the concrete range series. -/
theorem htf_trend_advanced_spec_witness :
    htf_trend_advanced ([] : List Candle) 50 = ("range", 0)
    ∧ 0 ≤ (htf_trend_advanced htfR 50).2 ∧ (htf_trend_advanced htfR 50).2 ≤ 1 :=
  ⟨(htf_trend_advanced_spec [] 50).1 (by decide),
    ((htf_trend_advanced_spec htfR 50).2 (by with_unfolding_all decide)).2.2⟩

/-- C9: a zero-range zone yields the defined strength 1/2 for every price,
and a signal whose stop equals its entry (zero risk) carries risk_reward 0
rather than a division artefact — in this rational model both values are
exact numbers by construction, never NaN or infinite. -/
theorem degenerate_numeric_defaults (p a tp zsQ : ℚ) (side trend zt zsrc did conf : String) :
    calculate_zone_strength p { low := a, high := a } = 1/2
    ∧ (format_signal_output side p p tp trend zt zsrc did conf zsQ).risk_reward = 0 := by
  constructor
  · simp [calculate_zone_strength]
  · norm_num [format_signal_output, round2]

/-- C10: the swing detectors return exactly the indices i with
w <= i < length - w whose price equals the window extreme over the closed
window [i-w, i+w] (equality sufficient, so plateaus may repeat), no index
within w of either end, and the empty list whenever the series is shorter
than 2w+1. -/
theorem swing_detector_spec (df : List Candle) (w i : Nat) :
    (i ∈ find_swing_highs df w
      ↔ (w ≤ i ∧ i + w < df.length
          ∧ (df.map (·.high)).getD i 0
              = listMax (sliceQ (df.map (·.high)) (i - w) (i + w + 1))))
    ∧ (i ∈ find_swing_lows df w
      ↔ (w ≤ i ∧ i + w < df.length
          ∧ (df.map (·.low)).getD i 0
              = listMin (sliceQ (df.map (·.low)) (i - w) (i + w + 1))))
    ∧ (df.length < 2 * w + 1 → find_swing_highs df w = [] ∧ find_swing_lows df w = []) := by
  refine ⟨?_, ?_, ?_⟩
  · simp only [find_swing_highs, List.mem_filter, List.mem_range'_1, decide_eq_true_eq]
    constructor
    · rintro ⟨⟨h1, h2⟩, h3⟩
      exact ⟨h1, by omega, h3⟩
    · rintro ⟨h1, h2, h3⟩
      exact ⟨⟨h1, by omega⟩, h3⟩
  · simp only [find_swing_lows, List.mem_filter, List.mem_range'_1, decide_eq_true_eq]
    constructor
    · rintro ⟨⟨h1, h2⟩, h3⟩
      exact ⟨h1, by omega, h3⟩
    · rintro ⟨h1, h2, h3⟩
      exact ⟨⟨h1, by omega⟩, h3⟩
  · intro h
    have hz : df.length - 2 * w = 0 := by omega
    constructor <;> simp [find_swing_highs, find_swing_lows, hz]

/-- Witness for C10: a three-candle series with window 3 yields no swings. -/
theorem swing_detector_spec_witness :
    find_swing_highs htfG 3 = [] ∧ find_swing_lows htfG 3 = [] :=
  (swing_detector_spec htfG 3 0).2.2 (by decide)
